import Mathlib

/-!
Verification of the aumai-edumentor core (`src/aumai_edumentor/core.py`,
`src/aumai_edumentor/models.py`) against its natural-language specification.

The embedding is shallow: each Python function of the core is translated to a
computable Lean definition over explicit data.  Python dictionaries that may
lack keys are modelled with `Option`; the dynamically typed `correct` flag is
modelled by the variant type `PyVal`; Python floats produced by
`round(x, 1)` are modelled exactly over `ℚ` with round-half-to-even, which
agrees with CPython on every realistically sized answer list.
-/

namespace EduMentor

/-- `LearningContent` from `models.py`: one educational unit.  The pydantic
validation constraints (difficulty/content-type enums, grade 1-12) are not
baked into the type; they are stated as hypotheses where a claim needs them. -/
structure LearningContent where
  content_id : String
  subject : String
  topic : String
  difficulty : String
  content_type : String
  content : String
  ncf_alignment : List String
  grade_level : Nat
deriving DecidableEq, Repr

/-- `LearnerProfile` from `models.py`. -/
structure LearnerProfile where
  learner_id : String
  name : String
  age : Nat
  grade : Nat
  language : String
  strengths : List String
  weaknesses : List String
  learning_style : String
deriving DecidableEq, Repr

/-- `LearningPath` from `models.py`.  `progress_pct` is a float in the source;
the planner always sets it to `0.0`, modelled as `(0 : ℚ)`. -/
structure LearningPath where
  learner : LearnerProfile
  content_sequence : List LearningContent
  progress_pct : ℚ
deriving DecidableEq, Repr

/-- `AssessmentResult` from `models.py`; the float score is modelled as `ℚ`. -/
structure AssessmentResult where
  learner_id : String
  subject : String
  score : ℚ
  areas_to_improve : List String
deriving DecidableEq, Repr

/-! ### ContentLibrary (`core.py`, class `ContentLibrary`)

A `ContentLibrary` is its `_contents` list; `add` is list append and
`all_content` the list itself, so the library is modelled directly as
`List LearningContent`. -/

/-- Python `str.lower()`, modelled character-wise (`Char.toLower`, ASCII as in
every string this system compares). -/
def pyLower (s : String) : String := ⟨s.data.map Char.toLower⟩

/-- Python `str.strip()`: drop leading and trailing whitespace. -/
def pyStrip (s : String) : String :=
  ⟨((s.data.dropWhile Char.isWhitespace).reverse.dropWhile Char.isWhitespace).reverse⟩

/-- The subject test of `ContentLibrary.search`:
`c.subject.lower() == subject.lower()`. -/
def subjectMatches (subject : String) (c : LearningContent) : Bool :=
  pyLower c.subject == pyLower subject

/-- The filtering phase of `ContentLibrary.search`.  Note the source guards the
difficulty restriction with Python truthiness (`if difficulty:`), so an
empty-string difficulty imposes no restriction, while the grade restriction is
guarded by `is not None` and always applies when present. -/
def searchFiltered (lib : List LearningContent) (subject : String)
    (difficulty : Option String) (grade : Option Nat) : List LearningContent :=
  let results := lib.filter (subjectMatches subject)
  let results :=
    match difficulty with
    | none => results
    | some d => if d == "" then results else results.filter (fun c => c.difficulty == d)
  match grade with
  | none => results
  | some g => results.filter (fun c => c.grade_level == g)

/-- Lexicographic `≤` on character lists by code point: the order Python uses
to compare strings. -/
def charListLEb : List Char → List Char → Bool
  | [], _ => true
  | _ :: _, [] => false
  | a :: as, b :: bs =>
    if a.toNat < b.toNat then true
    else if b.toNat < a.toNat then false
    else charListLEb as bs

/-- Python's `≤` on strings: lexicographic by code point. -/
def strLE (a b : String) : Bool := charListLEb a.data b.data

theorem charListLEb_total : ∀ as bs, charListLEb as bs = true ∨ charListLEb bs as = true
  | [], _ => Or.inl rfl
  | _ :: _, [] => Or.inr rfl
  | a :: as, b :: bs => by
    rcases charListLEb_total as bs with h | h <;>
      simp only [charListLEb] <;> split_ifs with h1 h2 <;> simp_all

theorem charListLEb_trans : ∀ as bs cs, charListLEb as bs = true →
    charListLEb bs cs = true → charListLEb as cs = true
  | [], _, _, _, _ => rfl
  | a :: as, b :: bs, c :: cs, hab, hbc => by
    simp only [charListLEb] at hab hbc ⊢
    split_ifs at hab hbc ⊢ <;> try omega
    all_goals simp_all
    exact charListLEb_trans as bs cs hab hbc

/-- The sort order of `ContentLibrary.search`: Python's
`sorted(results, key=lambda c: (c.grade_level, c.difficulty))`, i.e. the
lexicographic order on the pair (grade level, difficulty label as a string). -/
def searchLE (a b : LearningContent) : Prop :=
  a.grade_level < b.grade_level ∨
    (a.grade_level = b.grade_level ∧ strLE a.difficulty b.difficulty = true)

instance : DecidableRel searchLE := fun a b => by
  unfold searchLE; exact inferInstance

instance : IsTotal LearningContent searchLE where
  total a b := by
    unfold searchLE
    rcases Nat.lt_trichotomy a.grade_level b.grade_level with h | h | h
    · exact Or.inl (Or.inl h)
    · rcases charListLEb_total a.difficulty.data b.difficulty.data with hd | hd
      · exact Or.inl (Or.inr ⟨h, hd⟩)
      · exact Or.inr (Or.inr ⟨h.symm, hd⟩)
    · exact Or.inr (Or.inl h)

instance : IsTrans LearningContent searchLE where
  trans a b c hab hbc := by
    unfold searchLE strLE at *
    rcases hab with h1 | ⟨h1, d1⟩ <;> rcases hbc with h2 | ⟨h2, d2⟩
    · exact Or.inl (h1.trans h2)
    · exact Or.inl (h2 ▸ h1)
    · exact Or.inl (h1 ▸ h2)
    · exact Or.inr ⟨h1.trans h2, charListLEb_trans _ _ _ d1 d2⟩

/-- `ContentLibrary.search`: filter by subject (case-insensitively), then by
the optional difficulty and grade, then sort by `(grade_level, difficulty)`.
Python's `sorted` is a stable sort; `List.insertionSort` is stable for the
same total preorder, hence produces the identical list. -/
def search (lib : List LearningContent) (subject : String)
    (difficulty : Option String) (grade : Option Nat) : List LearningContent :=
  List.insertionSort searchLE (searchFiltered lib subject difficulty grade)

/-! ### PathGenerator (`core.py`, class `PathGenerator`) -/

/-- Lower end of the grade window: `max(1, learner.grade - 1)`.  With
`grade ≥ 1` the truncated `Nat` subtraction agrees with Python. -/
def gradeLo (grade : Nat) : Nat := max 1 (grade - 1)

/-- Exclusive upper end of the grade window: `min(12, learner.grade + 2)`,
the second argument of the Python `range` in `PathGenerator.generate`. -/
def gradeHiExcl (grade : Nat) : Nat := min 12 (grade + 2)

/-- `c.grade_level in range(max(1, grade-1), min(12, grade+2))`. -/
def inGradeRange (grade lvl : Nat) : Bool :=
  gradeLo grade ≤ lvl && lvl < gradeHiExcl grade

/-- The grade-filtered subject results of `PathGenerator.generate`, before the
empty-fallback. -/
def gradeFiltered (lib : List LearningContent) (learner : LearnerProfile)
    (subject : String) : List LearningContent :=
  (search lib subject none none).filter (fun c => inGradeRange learner.grade c.grade_level)

/-- The grade-filtered set after the fallback: if it is empty, the full
subject result set is used instead. -/
def gradeFilteredOrFallback (lib : List LearningContent) (learner : LearnerProfile)
    (subject : String) : List LearningContent :=
  if (gradeFiltered lib learner subject).isEmpty then search lib subject none none
  else gradeFiltered lib learner subject

/-- `subject_lower in [w.lower() for w in learner.weaknesses]`. -/
def isWeak (learner : LearnerProfile) (subject : String) : Bool :=
  (learner.weaknesses.map pyLower).contains (pyLower subject)

/-- The target (starting) difficulty of `PathGenerator.generate`. -/
def startingDifficulty (learner : LearnerProfile) (subject : String) : String :=
  if isWeak learner subject then "beginner" else "intermediate"

/-- `_DIFFICULTY_ORDER.get(d, 1)`: beginner 0, intermediate 1, advanced 2,
anything else defaults to 1. -/
def difficultyOrder (d : String) : Nat :=
  if d == "beginner" then 0
  else if d == "intermediate" then 1
  else if d == "advanced" then 2
  else 1

/-- The sort key of `PathGenerator.generate`:
`(abs(diff_val - target), content.grade_level)`. -/
def sortKey (target : String) (c : LearningContent) : Nat × Nat :=
  (((difficultyOrder c.difficulty : Int) - (difficultyOrder target : Int)).natAbs,
    c.grade_level)

/-- Lexicographic order on `Nat × Nat`, the order Python uses when sorting by
a pair-valued key. -/
def natPairLE (p q : Nat × Nat) : Prop :=
  p.1 < q.1 ∨ (p.1 = q.1 ∧ p.2 ≤ q.2)

/-- The comparison used by `grade_filtered.sort(key=sort_key)`. -/
def keyLE (target : String) (a b : LearningContent) : Prop :=
  natPairLE (sortKey target a) (sortKey target b)

instance : DecidableRel natPairLE := fun p q => by
  unfold natPairLE; exact inferInstance

instance (target : String) : DecidableRel (keyLE target) := fun a b => by
  unfold keyLE; exact inferInstance

instance (target : String) : IsTotal LearningContent (keyLE target) where
  total a b := by unfold keyLE natPairLE; omega

instance (target : String) : IsTrans LearningContent (keyLE target) where
  trans a b c hab hbc := by unfold keyLE natPairLE at *; omega

/-- The grade-filtered (or fallback) items sorted in place by
`grade_filtered.sort(key=sort_key)`.  Python's list sort is stable;
`List.insertionSort` is stable for the same total preorder, hence produces
the identical list. -/
def sortedItems (lib : List LearningContent) (learner : LearnerProfile)
    (subject : String) : List LearningContent :=
  List.insertionSort (keyLE (startingDifficulty learner subject))
    (gradeFilteredOrFallback lib learner subject)

/-- `style_pref.get(learner.learning_style, "text")`. -/
def stylePref (style : String) : String :=
  if style == "visual" then "activity"
  else if style == "auditory" then "text"
  else if style == "kinesthetic" then "activity"
  else if style == "read-write" then "text"
  else "text"

/-- The `preferred + others` concatenation of `PathGenerator.generate`:
items whose content type matches the learner's preferred type first, the
remaining items after, each part keeping the sorted order. -/
def orderedItems (lib : List LearningContent) (learner : LearnerProfile)
    (subject : String) : List LearningContent :=
  (sortedItems lib learner subject).filter
      (fun c => c.content_type == stylePref learner.learning_style) ++
    (sortedItems lib learner subject).filter
      (fun c => c.content_type != stylePref learner.learning_style)

/-- The dedup loop of `PathGenerator.generate`: walk the list, keep an item
only if its `content_id` has not been seen before. -/
def dedupById (seen : List String) : List LearningContent → List LearningContent
  | [] => []
  | c :: rest =>
    if seen.contains c.content_id then dedupById seen rest
    else c :: dedupById (c.content_id :: seen) rest

/-- `PathGenerator.generate`. -/
def generate (lib : List LearningContent) (learner : LearnerProfile)
    (subject : String) : LearningPath :=
  { learner := learner
    content_sequence := dedupById [] (orderedItems lib learner subject)
    progress_pct := 0 }

/-! ### AssessmentEngine (`core.py`, class `AssessmentEngine`) -/

/-- A dynamically typed Python value, as far as the scorer inspects one:
a bool, a string, an int, or `None`. -/
inductive PyVal where
  | bool : Bool → PyVal
  | str : String → PyVal
  | int : Int → PyVal
  | none : PyVal
deriving DecidableEq, Repr

/-- Python truthiness `bool(value)` on the modelled values. -/
def pyTruthy : PyVal → Bool
  | PyVal.bool b => b
  | PyVal.str s => !(s == "")
  | PyVal.int n => !(n == 0)
  | PyVal.none => false

/-- `_is_correct` from `AssessmentEngine.evaluate`: a string is correct unless
its trimmed, lower-cased form is one of `"false"`, `"0"`, `"no"`, `""`;
any other value is judged by Python truthiness. -/
def isCorrect : PyVal → Bool
  | PyVal.str s => !(["false", "0", "no", ""].contains (pyLower (pyStrip s)))
  | v => pyTruthy v

/-- An answer record: a JSON-shaped dict of which `evaluate` reads the keys
`correct` (any value, possibly absent) and `topic` (a string label, possibly
absent).  `question_id` is carried but never read by `evaluate`. -/
structure Answer where
  question_id : Option String
  correct : Option PyVal
  topic : Option String
deriving DecidableEq, Repr

/-- `answer.get("correct", False)`. -/
def correctVal (a : Answer) : PyVal := a.correct.getD (PyVal.bool false)

/-- `sum(1 for a in answers if _is_correct(a.get("correct", False)))`. -/
def correctCount (answers : List Answer) : Nat :=
  (answers.filter (fun a => isCorrect (correctVal a))).length

/-- Round-half-to-even on `ℚ`, the rounding CPython's `round` applies. -/
def roundHalfEven (q : ℚ) : ℤ :=
  if q - ⌊q⌋ < 1 / 2 then ⌊q⌋
  else if 1 / 2 < q - ⌊q⌋ then ⌊q⌋ + 1
  else if ⌊q⌋ % 2 = 0 then ⌊q⌋ else ⌊q⌋ + 1

/-- `round(q, 1)` over exact rationals. -/
def pyRound1 (q : ℚ) : ℚ := (roundHalfEven (q * 10) : ℚ) / 10

/-- The topic-collection loop of `AssessmentEngine.evaluate`: for each answer
judged incorrect, append `str(answer.get("topic", subject))` to the
accumulator unless already present. -/
def collectTopics (subject : String) (acc : List String) :
    List Answer → List String
  | [] => acc
  | a :: rest =>
    if isCorrect (correctVal a) then collectTopics subject acc rest
    else
      if acc.contains (a.topic.getD subject) then collectTopics subject acc rest
      else collectTopics subject (acc ++ [a.topic.getD subject]) rest

/-- `AssessmentEngine.evaluate`.  The source's
`incorrect_topics if incorrect_topics else []` is the identity on lists and
is embedded as such. -/
def evaluate (learner_id subject : String) (answers : List Answer) :
    AssessmentResult :=
  if answers.isEmpty then
    { learner_id := learner_id
      subject := subject
      score := 0
      areas_to_improve := ["No answers provided — please attempt the assessment."] }
  else
    let score : ℚ := pyRound1 ((correctCount answers : ℚ) / (answers.length : ℚ) * 100)
    let incorrect_topics := collectTopics subject [] answers
    let areas1 := if score < 40
      then incorrect_topics ++ ["Fundamental concepts in " ++ subject]
      else incorrect_topics
    let areas2 := if areas1.isEmpty
      then ["Continue to advanced topics — excellent performance!"]
      else areas1
    { learner_id := learner_id
      subject := subject
      score := score
      areas_to_improve := areas2 }
/-! ### Spec-side characterizations

These definitions phrase what the specification asserts, to be compared with
the source-derived definitions above. -/

/-- The distinct elements of a list in first-occurrence order: keep the head,
drop its later duplicates, recurse.  This is the spec's reading of "distinct
topics (first-occurrence order, case-sensitive)". -/
def distinctFirstOcc : List String → List String
  | [] => []
  | t :: ts => t :: distinctFirstOcc (ts.filter (fun x => !(x == t)))
termination_by l => l.length
decreasing_by
  simp only [List.length_cons]
  exact Nat.lt_succ_of_le (List.length_filter_le _ _)

/-- The topic labels of the answers judged incorrect, in answer order, each
defaulting to the assessed subject when absent. -/
def topicsOf (subject : String) (answers : List Answer) : List String :=
  (answers.filter (fun a => !(isCorrect (correctVal a)))).map
    (fun a => a.topic.getD subject)

/-! ### Concrete inputs used by counterexamples and witnesses -/

/-- A grade-12 item; `LearningContent.grade_level` admits 12 (`le=12`). -/
def gradeTwelveItem : LearningContent :=
  ⟨"math-g12", "math", "Grade 12 topic", "intermediate", "text", "x", [], 12⟩

/-- A valid learner in grade 11. -/
def gradeElevenLearner : LearnerProfile :=
  ⟨"L-11", "Grade 11 learner", 16, 11, "en", [], [], "visual"⟩

/-- A plain intermediate math item at grade 5. -/
def plainMathItem : LearningContent :=
  ⟨"math-x1", "math", "Some topic", "intermediate", "text", "x", [], 5⟩

/-- An answer judged correct (boolean `True`). -/
def ansRight : Answer := ⟨some "q1", some (PyVal.bool true), some "Algebra"⟩

/-- An answer judged incorrect (the string `"false"`). -/
def ansWrong2 : Answer := ⟨some "q2", some (PyVal.str "false"), some "Fractions"⟩

/-- An answer record with no `correct` key and no `topic` key. -/
def ansNoKey : Answer := ⟨some "q3", none, none⟩

/-! ### Helper lemmas -/

/-- The three sequential filters of `ContentLibrary.search` collapse to one
filter by the conjunction of the three tests. -/
theorem searchFiltered_eq_filter (lib : List LearningContent) (subject : String)
    (d : Option String) (g : Option Nat) :
    searchFiltered lib subject d g = lib.filter (fun c =>
      subjectMatches subject c &&
      ((match d with
        | none => true
        | some dd => dd == "" || c.difficulty == dd) &&
       (match g with
        | none => true
        | some gg => c.grade_level == gg))) := by
  cases d with
  | none =>
    cases g with
    | none => simp [searchFiltered]
    | some gg => simp [searchFiltered, List.filter_filter, Bool.and_comm]
  | some dd =>
    rcases h : (dd == "") with _ | _
    · cases g with
      | none =>
        simp only [searchFiltered, h, Bool.false_eq_true, if_false, List.filter_filter]
        exact List.filter_congr fun a _ => by
          cases subjectMatches subject a <;> cases (a.difficulty == dd) <;> simp
      | some gg =>
        simp only [searchFiltered, h, Bool.false_eq_true, if_false, List.filter_filter]
        exact List.filter_congr fun a _ => by
          cases subjectMatches subject a <;> cases (a.difficulty == dd) <;>
            cases (a.grade_level == gg) <;> simp
    · cases g with
      | none => simp [searchFiltered, h]
      | some gg =>
        simp only [searchFiltered, h, if_true, List.filter_filter]
        exact List.filter_congr fun a _ => by
          cases subjectMatches subject a <;> cases (a.grade_level == gg) <;> simp [h]

/-- `search` permutes its filtering phase (the final step only sorts). -/
theorem search_perm (lib : List LearningContent) (subject : String)
    (d : Option String) (g : Option Nat) :
    (search lib subject d g).Perm (searchFiltered lib subject d g) :=
  List.perm_insertionSort _ _

theorem mem_search_iff (lib : List LearningContent) (subject : String)
    (d : Option String) (g : Option Nat) (c : LearningContent) :
    c ∈ search lib subject d g ↔ c ∈ searchFiltered lib subject d g :=
  (search_perm lib subject d g).mem_iff

theorem mem_search_mem_lib {lib : List LearningContent} {subject : String}
    {d : Option String} {g : Option Nat} {c : LearningContent}
    (h : c ∈ search lib subject d g) : c ∈ lib := by
  rw [mem_search_iff, searchFiltered_eq_filter] at h
  exact (List.mem_filter.mp h).1

theorem dedupById_sublist : ∀ (seen : List String) (l : List LearningContent),
    (dedupById seen l).Sublist l
  | _, [] => List.Sublist.refl _
  | seen, c :: rest => by
    rw [dedupById]
    split_ifs
    · exact (dedupById_sublist seen rest).trans (List.sublist_cons_self c rest)
    · exact (dedupById_sublist (c.content_id :: seen) rest).cons₂ c

theorem dedupById_not_seen : ∀ (seen : List String) (l : List LearningContent)
    (c : LearningContent), c ∈ dedupById seen l → seen.contains c.content_id = false
  | seen, [], c, h => by simp [dedupById] at h
  | seen, a :: rest, c, h => by
    rw [dedupById] at h
    split_ifs at h with hs
    · exact dedupById_not_seen seen rest c h
    · rcases List.mem_cons.mp h with rfl | h
      · exact Bool.eq_false_iff.mpr hs
      · have := dedupById_not_seen (a.content_id :: seen) rest _ h
        simp only [List.contains_cons, Bool.or_eq_false_iff] at this
        exact this.2

theorem dedupById_nodup : ∀ (seen : List String) (l : List LearningContent),
    ((dedupById seen l).map LearningContent.content_id).Nodup
  | seen, [] => List.nodup_nil
  | seen, c :: rest => by
    rw [dedupById]
    split_ifs with hs
    · exact dedupById_nodup seen rest
    · refine List.nodup_cons.mpr ⟨?_, dedupById_nodup (c.content_id :: seen) rest⟩
      intro hmem
      rcases List.mem_map.mp hmem with ⟨x, hx, hid⟩
      have := dedupById_not_seen _ _ _ hx
      simp [List.contains_cons, hid] at this

/-- The dedup loop keeps, for each surviving item, the first occurrence of its
identifier in the input list. -/
theorem dedupById_find : ∀ (seen : List String) (l : List LearningContent)
    (c : LearningContent), c ∈ dedupById seen l →
      l.find? (fun x => x.content_id == c.content_id) = some c
  | seen, [], c, h => by simp [dedupById] at h
  | seen, a :: rest, c, h => by
    rw [dedupById] at h
    split_ifs at h with hs
    · have hne : (a.content_id == c.content_id) = false := by
        have hc := dedupById_not_seen seen rest c h
        rcases hb : (a.content_id == c.content_id) with _ | _
        · rfl
        · rw [eq_of_beq hb] at hs
          rw [hs] at hc
          simp at hc
      rw [List.find?_cons, hne]
      exact dedupById_find seen rest c h
    · rcases List.mem_cons.mp h with rfl | h
      · rw [List.find?_cons, beq_self_eq_true]
      · have hc := dedupById_not_seen (a.content_id :: seen) rest c h
        simp only [List.contains_cons, Bool.or_eq_false_iff] at hc
        have hne : (a.content_id == c.content_id) = false := by
          rcases hb : (a.content_id == c.content_id) with _ | _
          · rfl
          · rw [eq_of_beq hb] at hc
            simp at hc
        rw [List.find?_cons, hne]
        exact dedupById_find (a.content_id :: seen) rest c h

theorem dedupById_ne_nil {l : List LearningContent} (h : l ≠ []) :
    dedupById [] l ≠ [] := by
  match l with
  | [] => exact absurd rfl h
  | c :: rest =>
    rw [dedupById]
    simp

theorem mem_orderedItems_mem_lib {lib : List LearningContent} {learner : LearnerProfile}
    {subject : String} {c : LearningContent}
    (h : c ∈ orderedItems lib learner subject) : c ∈ lib := by
  have hs : c ∈ sortedItems lib learner subject := by
    rcases List.mem_append.mp h with h' | h' <;> exact List.mem_filter.mp h' |>.1
  have hg : c ∈ gradeFilteredOrFallback lib learner subject :=
    (List.perm_insertionSort _ _).subset hs
  have hsr : c ∈ search lib subject none none := by
    unfold gradeFilteredOrFallback at hg
    split_ifs at hg
    · exact hg
    · exact (List.filter_sublist _).subset hg
  exact mem_search_mem_lib hsr

theorem strContains_append (l1 l2 : List String) (a : String) :
    (l1 ++ l2).contains a = (l1.contains a || l2.contains a) := by
  induction l1 with
  | nil => simp
  | cons x xs ih => simp [List.contains_cons, ih, Bool.or_assoc]

theorem mem_distinctFirstOcc : ∀ (l : List String) (t : String),
    t ∈ distinctFirstOcc l ↔ t ∈ l
  | [], t => by rw [distinctFirstOcc]
  | x :: xs, t => by
    rw [distinctFirstOcc]
    by_cases hxt : t = x
    · subst hxt; simp
    · simp only [List.mem_cons, hxt, false_or]
      rw [mem_distinctFirstOcc (xs.filter (fun y => !(y == x))) t]
      simp [List.mem_filter, hxt]
termination_by l _ => l.length
decreasing_by
  simp only [List.length_cons]
  exact Nat.lt_succ_of_le (List.length_filter_le _ _)

theorem distinctFirstOcc_eq_nil_iff (l : List String) :
    distinctFirstOcc l = [] ↔ l = [] := by
  cases l with
  | nil => simp [distinctFirstOcc]
  | cons x xs => rw [distinctFirstOcc]; simp

/-- The accumulator-threading topic-collection loop of `evaluate` computes the
first-occurrence deduplication of the incorrect answers' topics. -/
theorem collectTopics_eq (subject : String) : ∀ (answers : List Answer) (acc : List String),
    collectTopics subject acc answers =
      acc ++ distinctFirstOcc ((topicsOf subject answers).filter (fun t => !(acc.contains t)))
  | [], acc => by simp [collectTopics, topicsOf, distinctFirstOcc]
  | a :: rest, acc => by
    rcases hcor : isCorrect (correctVal a) with _ | _
    · rcases hmem : acc.contains (a.topic.getD subject) with _ | _
      · rw [collectTopics]
        rw [hcor, hmem]
        simp only [Bool.false_eq_true, if_false]
        rw [collectTopics_eq subject rest (acc ++ [a.topic.getD subject])]
        have hfil : (topicsOf subject rest).filter
            (fun t => !((acc ++ [a.topic.getD subject]).contains t)) =
            ((topicsOf subject rest).filter (fun t => !(acc.contains t))).filter
              (fun t => !(t == a.topic.getD subject)) := by
          rw [List.filter_filter]
          refine (List.filter_congr fun t _ => ?_)
          rw [strContains_append]
          rcases h1 : acc.contains t with _ | _ <;>
            rcases h2 : (t == a.topic.getD subject) with _ | _ <;>
              simp [h1, h2, List.contains_cons] <;>
                first
                | exact ne_of_beq_false h2
                | exact eq_of_beq h2
        have htop : topicsOf subject (a :: rest) =
            a.topic.getD subject :: topicsOf subject rest := by
          rw [topicsOf, topicsOf, List.filter_cons, hcor]
          simp
        rw [htop]
        rw [List.filter_cons]
        rw [hmem]
        simp only [Bool.not_false, if_true]
        rw [distinctFirstOcc]
        rw [hfil]
        simp
      · rw [collectTopics]
        rw [hcor, hmem]
        simp only [Bool.false_eq_true, if_false, if_true]
        rw [collectTopics_eq subject rest acc]
        have htop : topicsOf subject (a :: rest) =
            a.topic.getD subject :: topicsOf subject rest := by
          rw [topicsOf, topicsOf, List.filter_cons, hcor]
          simp
        rw [htop, List.filter_cons, hmem]
        simp
    · rw [collectTopics]
      rw [hcor]
      simp only [if_true]
      rw [collectTopics_eq subject rest acc]
      have htop : topicsOf subject (a :: rest) = topicsOf subject rest := by
        rw [topicsOf, topicsOf, List.filter_cons, hcor]
        simp
      rw [htop]

theorem collectTopics_nil_acc (subject : String) (answers : List Answer) :
    collectTopics subject [] answers = distinctFirstOcc (topicsOf subject answers) := by
  rw [collectTopics_eq subject answers []]
  simp

theorem evaluate_score_eq (learner_id subject : String) (answers : List Answer)
    (h : answers ≠ []) :
    (evaluate learner_id subject answers).score =
      pyRound1 ((correctCount answers : ℚ) / (answers.length : ℚ) * 100) := by
  have hie : answers.isEmpty = false := List.isEmpty_eq_false.mpr h
  simp [evaluate, hie]

theorem evaluate_areas_eq (learner_id subject : String) (answers : List Answer)
    (h : answers ≠ []) :
    (evaluate learner_id subject answers).areas_to_improve =
      (if (evaluate learner_id subject answers).score < 40
       then distinctFirstOcc (topicsOf subject answers) ++
         ["Fundamental concepts in " ++ subject]
       else if distinctFirstOcc (topicsOf subject answers) = []
       then ["Continue to advanced topics — excellent performance!"]
       else distinctFirstOcc (topicsOf subject answers)) := by
  have hie : answers.isEmpty = false := List.isEmpty_eq_false.mpr h
  simp only [evaluate, hie, Bool.false_eq_true, if_false, collectTopics_nil_acc]
  split_ifs with h1 h2 h3 h4 h5 <;> simp_all [List.isEmpty_iff]

/-! ### Claim theorems -/

/-- C8: evaluating an empty answer list always returns an `AssessmentResult`
with score exactly `0.0` and an areas-to-improve list that is exactly the
single message `"No answers provided — please attempt the assessment."`. -/
theorem evaluate_empty_answer_list (learner_id subject : String) :
    evaluate learner_id subject [] =
      { learner_id := learner_id
        subject := subject
        score := 0
        areas_to_improve := ["No answers provided — please attempt the assessment."] } :=
  rfl

/-- C2: a string correctness value is judged correct exactly when, after
trimming whitespace and lower-casing, it is none of `"false"`, `"0"`, `"no"`,
`""` (so `"true"`, `"yes"`, `"1"` and arbitrary other text count as correct);
a non-string value is judged by standard Python truthiness. -/
theorem isCorrect_flag_semantics :
    (∀ s : String, isCorrect (PyVal.str s) =
      (pyLower (pyStrip s) != "false" && (pyLower (pyStrip s) != "0" &&
        (pyLower (pyStrip s) != "no" && pyLower (pyStrip s) != "")))) ∧
    (∀ b : Bool, isCorrect (PyVal.bool b) = pyTruthy (PyVal.bool b)) ∧
    (∀ n : Int, isCorrect (PyVal.int n) = pyTruthy (PyVal.int n)) ∧
    isCorrect PyVal.none = pyTruthy PyVal.none ∧
    isCorrect (PyVal.str "true") = true ∧
    isCorrect (PyVal.str "yes") = true ∧
    isCorrect (PyVal.str "1") = true ∧
    isCorrect (PyVal.str "garbage text") = true ∧
    isCorrect (PyVal.bool true) = true ∧
    isCorrect (PyVal.int 1) = true ∧
    isCorrect (PyVal.bool false) = false ∧
    isCorrect (PyVal.str "false") = false ∧
    isCorrect (PyVal.str " False ") = false ∧
    isCorrect (PyVal.str "0") = false ∧
    isCorrect (PyVal.str "no") = false ∧
    isCorrect (PyVal.str "") = false ∧
    isCorrect (PyVal.int 0) = false ∧
    isCorrect PyVal.none = false := by
  refine ⟨fun s => ?_, fun b => rfl, fun n => rfl, rfl, ?_⟩
  · simp only [isCorrect, List.contains, List.elem, Bool.not_or, bne]
    rcases h1 : pyLower (pyStrip s) == "false" <;>
      rcases h2 : pyLower (pyStrip s) == "0" <;>
        rcases h3 : pyLower (pyStrip s) == "no" <;>
          rcases h4 : pyLower (pyStrip s) == "" <;> simp [h1, h2, h3, h4]
  · decide

/-- C1 (code bug): the spec's inclusive grade window is
`[max(1, g-1), min(12, g+1)]`, but the source builds
`range(max(1, g-1), min(12, g+2))`, whose exclusive end caps the inclusive
upper bound at 11 rather than 12.  Concretely, for a valid grade-11 learner a
subject-matching grade-12 item lies inside the claimed window yet is dropped
by the grade filter. -/
theorem grade_window_drops_grade12_item :
    gradeFiltered [gradeTwelveItem] gradeElevenLearner "math" = [] ∧
    gradeTwelveItem ∈ search [gradeTwelveItem] "math" none none ∧
    subjectMatches "math" gradeTwelveItem = true ∧
    gradeLo gradeElevenLearner.grade ≤ gradeTwelveItem.grade_level ∧
    gradeTwelveItem.grade_level ≤ min 12 (gradeElevenLearner.grade + 1) ∧
    1 ≤ gradeElevenLearner.grade ∧ gradeElevenLearner.grade ≤ 12 := by
  decide

/-- C3 counterexample: when the difficulty argument is given as the empty
string, `search` performs no difficulty restriction (Python truthiness of
`if difficulty:`), so it returns an item whose difficulty is not an exact
match of the given one — contradicting the claim as stated. -/
theorem search_empty_difficulty_counterexample :
    search [plainMathItem] "math" (some "") none = [plainMathItem] ∧
    plainMathItem.difficulty ≠ "" := by
  decide

/-- C3 (amended: an empty-string difficulty argument is treated as absent):
`search` returns exactly the stored items whose subject matches
case-insensitively, restricted to an exact difficulty match when a non-empty
difficulty is given and an exact grade-level match when a grade is given,
sorted ascending by grade level with ties broken by the lexical string order
of the difficulty label (under which advanced < beginner < intermediate),
and a subject matching no item yields the empty list rather than an error. -/
theorem search_matches_and_sorted (lib : List LearningContent) (subject : String)
    (difficulty : Option String) (grade : Option Nat) :
    (search lib subject difficulty grade).Perm
      (lib.filter (fun c =>
        subjectMatches subject c &&
        ((match difficulty with
          | none => true
          | some d => d == "" || c.difficulty == d) &&
         (match grade with
          | none => true
          | some g => c.grade_level == g)))) ∧
    List.Sorted searchLE (search lib subject difficulty grade) ∧
    (strLE "advanced" "beginner" = true ∧ strLE "beginner" "advanced" = false ∧
     strLE "beginner" "intermediate" = true ∧ strLE "intermediate" "beginner" = false) ∧
    (lib.filter (subjectMatches subject) = [] →
      search lib subject difficulty grade = []) := by
  refine ⟨?_, List.sorted_insertionSort _ _, by decide, ?_⟩
  · rw [← searchFiltered_eq_filter]
    exact search_perm lib subject difficulty grade
  · intro h
    have hf : searchFiltered lib subject difficulty grade = [] := by
      rw [searchFiltered_eq_filter]
      rw [List.filter_eq_nil_iff] at h ⊢
      intro a ha hp
      exact h a ha (by simp_all)
    have := search_perm lib subject difficulty grade
    rw [hf] at this
    exact this.eq_nil

/-- C4: the content sequence of a generated path has pairwise distinct
identifiers, is a subsequence of the partitioned order (so relative order is
kept), keeps for each of its items the first occurrence of that identifier in
the partitioned order, and draws every item from the library's full content
list. -/
theorem generate_sequence_invariants (lib : List LearningContent)
    (learner : LearnerProfile) (subject : String) :
    ((generate lib learner subject).content_sequence.map LearningContent.content_id).Nodup ∧
    (generate lib learner subject).content_sequence.Sublist (orderedItems lib learner subject) ∧
    (∀ c ∈ (generate lib learner subject).content_sequence,
      (orderedItems lib learner subject).find? (fun x => x.content_id == c.content_id) = some c) ∧
    (∀ c ∈ (generate lib learner subject).content_sequence, c ∈ lib) := by
  refine ⟨dedupById_nodup [] _, dedupById_sublist [] _, ?_, ?_⟩
  · exact fun c hc => dedupById_find [] _ c hc
  · exact fun c hc => mem_orderedItems_mem_lib ((dedupById_sublist [] _).subset hc)

/-- C5: the generator's target difficulty is beginner exactly when the subject
appears case-insensitively among the learner's weaknesses; the sorted stage is
a permutation of the grade-filtered (or fallback) set, pairwise ordered by
absolute difficulty-rank distance to the target with grade level as tie-break,
and stable (key-ordered pairs keep their relative order); the partition stage
splits the sorted sequence into preferred-content-type items followed by the
rest, each side keeping the sorted relative order; the difficulty-rank and
learning-style tables are beginner/intermediate/advanced = 0/1/2 (default 1)
and visual/auditory/kinesthetic/read-write = activity/text/activity/text
(default text); the final sequence is the deduplication of that partition. -/
theorem generate_ordering_spec (lib : List LearningContent)
    (learner : LearnerProfile) (subject : String) :
    startingDifficulty learner subject =
      (if (learner.weaknesses.map pyLower).contains (pyLower subject)
       then "beginner" else "intermediate") ∧
    (sortedItems lib learner subject).Perm (gradeFilteredOrFallback lib learner subject) ∧
    (sortedItems lib learner subject).Pairwise (fun a b =>
      ((difficultyOrder a.difficulty : Int) -
        (difficultyOrder (startingDifficulty learner subject) : Int)).natAbs <
        ((difficultyOrder b.difficulty : Int) -
          (difficultyOrder (startingDifficulty learner subject) : Int)).natAbs ∨
      (((difficultyOrder a.difficulty : Int) -
        (difficultyOrder (startingDifficulty learner subject) : Int)).natAbs =
        ((difficultyOrder b.difficulty : Int) -
          (difficultyOrder (startingDifficulty learner subject) : Int)).natAbs ∧
        a.grade_level ≤ b.grade_level)) ∧
    (difficultyOrder "beginner" = 0 ∧ difficultyOrder "intermediate" = 1 ∧
     difficultyOrder "advanced" = 2 ∧
     (∀ d : String, d ≠ "beginner" → d ≠ "intermediate" → d ≠ "advanced" →
       difficultyOrder d = 1)) ∧
    (∀ a b : LearningContent,
      [a, b].Sublist (gradeFilteredOrFallback lib learner subject) →
      keyLE (startingDifficulty learner subject) a b →
      [a, b].Sublist (sortedItems lib learner subject)) ∧
    (∃ p o : List LearningContent,
      orderedItems lib learner subject = p ++ o ∧
      (∀ c ∈ p, c.content_type = stylePref learner.learning_style) ∧
      (∀ c ∈ o, c.content_type ≠ stylePref learner.learning_style) ∧
      p.Sublist (sortedItems lib learner subject) ∧
      o.Sublist (sortedItems lib learner subject) ∧
      (p ++ o).Perm (sortedItems lib learner subject)) ∧
    (stylePref "visual" = "activity" ∧ stylePref "auditory" = "text" ∧
     stylePref "kinesthetic" = "activity" ∧ stylePref "read-write" = "text" ∧
     (∀ s : String, s ≠ "visual" → s ≠ "auditory" → s ≠ "kinesthetic" →
       s ≠ "read-write" → stylePref s = "text")) ∧
    (generate lib learner subject).content_sequence =
      dedupById [] (orderedItems lib learner subject) := by
  have hp : (sortedItems lib learner subject).Pairwise
      (keyLE (startingDifficulty learner subject)) :=
    List.sorted_insertionSort _ _
  refine ⟨rfl, List.perm_insertionSort _ _, hp,
    ⟨rfl, rfl, rfl, ?_⟩, ?_, ?_, ⟨rfl, rfl, rfl, rfl, ?_⟩, rfl⟩
  · intro d h1 h2 h3
    simp [difficultyOrder, h1, h2, h3]
  · exact fun a b hsub hk => List.pair_sublist_insertionSort hk hsub
  · refine ⟨(sortedItems lib learner subject).filter
        (fun c => c.content_type == stylePref learner.learning_style),
      (sortedItems lib learner subject).filter
        (fun c => c.content_type != stylePref learner.learning_style),
      rfl, ?_, ?_, List.filter_sublist _, List.filter_sublist _, ?_⟩
    · intro c hc
      have := (List.mem_filter.mp hc).2
      exact eq_of_beq this
    · intro c hc
      have := (List.mem_filter.mp hc).2
      simp only [bne_iff_ne, ne_eq] at this
      exact this
    · exact List.filter_append_perm
        (fun c => c.content_type == stylePref learner.learning_style)
        (sortedItems lib learner subject)
  · intro s h1 h2 h3 h4
    simp [stylePref, h1, h2, h3, h4]

/-- C6: for a non-empty answer list the areas-to-improve are the distinct
topics of the incorrect answers in first-occurrence order, with
`"Fundamental concepts in {subject}"` appended (without dedup) exactly when
the score is strictly below 40, and the whole list replaced by the single
excellent-performance message exactly when it would otherwise be empty —
which happens exactly when every answer is judged correct. -/
theorem evaluate_areas_construction (learner_id subject : String)
    (answers : List Answer) (h : answers ≠ []) :
    (evaluate learner_id subject answers).areas_to_improve =
      (if (evaluate learner_id subject answers).score < 40
       then distinctFirstOcc (topicsOf subject answers) ++
         ["Fundamental concepts in " ++ subject]
       else if distinctFirstOcc (topicsOf subject answers) = []
       then ["Continue to advanced topics — excellent performance!"]
       else distinctFirstOcc (topicsOf subject answers)) ∧
    (distinctFirstOcc (topicsOf subject answers) = [] ↔
      ∀ a ∈ answers, isCorrect (correctVal a) = true) := by
  refine ⟨evaluate_areas_eq learner_id subject answers h, ?_⟩
  rw [distinctFirstOcc_eq_nil_iff, topicsOf, List.map_eq_nil_iff, List.filter_eq_nil_iff]
  constructor
  · intro hall a ha
    have := hall a ha
    simp only [Bool.not_eq_true'] at this
    simpa using this
  · intro hall a ha
    simp [hall a ha]

/-- C6 witness: concrete runs — one wrong answer of two gives exactly its
topic; two right answers of two give exactly the excellent-performance
message. -/
theorem evaluate_areas_construction_witness :
    (evaluate "W" "math" [ansRight, ansWrong2]).areas_to_improve = ["Fractions"] ∧
    (evaluate "W" "math" [ansRight, ansRight]).areas_to_improve =
      ["Continue to advanced topics — excellent performance!"] := by
  have h1 := (evaluate_areas_construction "W" "math" [ansRight, ansWrong2] (by decide)).1
  have h2 := (evaluate_areas_construction "W" "math" [ansRight, ansRight] (by decide)).1
  have hs1 := evaluate_score_eq "W" "math" [ansRight, ansWrong2] (by decide)
  have hs2 := evaluate_score_eq "W" "math" [ansRight, ansRight] (by decide)
  have hc1 : correctCount [ansRight, ansWrong2] = 1 := by decide
  have hc2 : correctCount [ansRight, ansRight] = 2 := by decide
  have hD1 : topicsOf "math" [ansRight, ansWrong2] = ["Fractions"] := by decide
  have hD2 : topicsOf "math" [ansRight, ansRight] = [] := by decide
  have hsc1 : (evaluate "W" "math" [ansRight, ansWrong2]).score = 50 := by
    rw [hs1, hc1]; rw [pyRound1, roundHalfEven]; push_cast; norm_num
  have hsc2 : (evaluate "W" "math" [ansRight, ansRight]).score = 100 := by
    rw [hs2, hc2]; rw [pyRound1, roundHalfEven]; push_cast; norm_num
  constructor
  · rw [h1, hsc1, hD1]
    norm_num [distinctFirstOcc]
  · rw [h2, hsc2, hD2]
    norm_num [distinctFirstOcc]

/-- C7: if the grade filter leaves nothing, the generator falls back to the
full subject result set, and consequently a subject with at least one
matching item in the library always yields a non-empty content sequence. -/
theorem generate_fallback_and_nonempty (lib : List LearningContent)
    (learner : LearnerProfile) (subject : String) :
    (gradeFiltered lib learner subject = [] →
      gradeFilteredOrFallback lib learner subject = search lib subject none none) ∧
    (lib.filter (subjectMatches subject) ≠ [] →
      (generate lib learner subject).content_sequence ≠ []) := by
  constructor
  · intro h
    unfold gradeFilteredOrFallback
    rw [h]
    simp
  · intro h
    have hsf : searchFiltered lib subject none none ≠ [] := h
    have hsearch : search lib subject none none ≠ [] := by
      intro hnil
      have := search_perm lib subject none none
      rw [hnil] at this
      exact hsf this.symm.eq_nil
    have hgf : gradeFilteredOrFallback lib learner subject ≠ [] := by
      unfold gradeFilteredOrFallback
      split_ifs with he
      · exact hsearch
      · exact List.isEmpty_eq_false.mp (Bool.eq_false_iff.mpr he)
    have hsi : sortedItems lib learner subject ≠ [] := by
      intro hnil
      have := List.perm_insertionSort
        (keyLE (startingDifficulty learner subject))
        (gradeFilteredOrFallback lib learner subject)
      rw [sortedItems] at hnil
      rw [hnil] at this
      exact hgf this.symm.eq_nil
    have hoi : orderedItems lib learner subject ≠ [] := by
      intro hnil
      have hperm := List.filter_append_perm
        (fun c => c.content_type == stylePref learner.learning_style)
        (sortedItems lib learner subject)
      have hnil2 : (sortedItems lib learner subject).filter
          (fun c => c.content_type == stylePref learner.learning_style) ++
          (sortedItems lib learner subject).filter
          (fun c => !(c.content_type == stylePref learner.learning_style)) = [] := hnil
      rw [hnil2] at hperm
      exact hsi hperm.symm.eq_nil
    exact dedupById_ne_nil hoi

/-- C9: for a non-empty answer list the score is exactly
`round(100 * correctCount / totalCount, 1)` (round half to even, over exact
rationals). -/
theorem evaluate_score_formula (learner_id subject : String) (answers : List Answer)
    (h : answers ≠ []) :
    (evaluate learner_id subject answers).score =
      pyRound1 (100 * (correctCount answers : ℚ) / (answers.length : ℚ)) := by
  rw [evaluate_score_eq learner_id subject answers h]
  congr 1
  ring

/-- C9 witness: one correct answer of three scores 33.3; one of one scores
100.0. -/
theorem evaluate_score_formula_witness :
    (evaluate "W" "math" [ansRight, ansWrong2, ansWrong2]).score = 333 / 10 ∧
    (evaluate "W" "math" [ansRight]).score = 100 := by
  have h1 := evaluate_score_formula "W" "math" [ansRight, ansWrong2, ansWrong2] (by decide)
  have h2 := evaluate_score_formula "W" "math" [ansRight] (by decide)
  have hc1 : correctCount [ansRight, ansWrong2, ansWrong2] = 1 := by decide
  have hc2 : correctCount [ansRight] = 1 := by decide
  rw [h1, h2, hc1, hc2]
  constructor <;> · rw [pyRound1, roundHalfEven]; push_cast; norm_num

/-- C10: an answer record with no `correct` key is judged incorrect — it is
not among the answers counted correct, and its topic (the subject when the
topic key is also missing) appears among the areas to improve. -/
theorem missing_correct_key_judged_incorrect (learner_id subject : String)
    (answers : List Answer) (a : Answer) (hmem : a ∈ answers)
    (hnone : a.correct = none) :
    isCorrect (correctVal a) = false ∧
    a ∉ answers.filter (fun x => isCorrect (correctVal x)) ∧
    (a.topic.getD subject) ∈ (evaluate learner_id subject answers).areas_to_improve := by
  have hcv : correctVal a = PyVal.bool false := by rw [correctVal, hnone]; rfl
  have hic : isCorrect (correctVal a) = false := by rw [hcv]; rfl
  refine ⟨hic, ?_, ?_⟩
  · intro hf
    have := (List.mem_filter.mp hf).2
    rw [hic] at this
    exact Bool.false_ne_true this
  · have hne : answers ≠ [] := List.ne_nil_of_mem hmem
    have htop : (a.topic.getD subject) ∈ topicsOf subject answers := by
      rw [topicsOf]
      exact List.mem_map.mpr ⟨a, List.mem_filter.mpr ⟨hmem, by rw [hic]; rfl⟩, rfl⟩
    have htop2 : (a.topic.getD subject) ∈ distinctFirstOcc (topicsOf subject answers) :=
      (mem_distinctFirstOcc _ _).mpr htop
    rw [evaluate_areas_eq learner_id subject answers hne]
    split_ifs with h1 h2
    · exact List.mem_append.mpr (Or.inl htop2)
    · exact absurd h2 (List.ne_nil_of_mem htop2)
    · exact htop2

/-- C10 witness: a concrete record lacking both keys is judged incorrect and
contributes the subject itself to the areas to improve. -/
theorem missing_correct_key_witness :
    isCorrect (correctVal ansNoKey) = false ∧
    ansNoKey ∉ ([ansRight, ansNoKey].filter (fun x => isCorrect (correctVal x))) ∧
    ("math" : String) ∈ (evaluate "W" "math" [ansRight, ansNoKey]).areas_to_improve :=
  missing_correct_key_judged_incorrect "W" "math" [ansRight, ansNoKey] ansNoKey
    (by decide) rfl

end EduMentor
